import Mathlib

/-!
Shallow embedding of the EcoTracker repository core (React Native app,
files `PhotoScreen.tsx` (which also holds `AddActivityScreen`),
`StatsScreen.tsx`, `HomeScreen.tsx`).

Modelling conventions:
* Timestamps (`new Date().toISOString()` strings, `Date.now()` values) are
  modelled as integers counting milliseconds; the local timezone is taken as a
  fixed offset absorbed into the integer, so `toDateString` becomes floor
  division by the number of milliseconds per day.
* `AsyncStorage` is a record with one slot per key (`activities`, `photos`).
  A slot holds `Payload.absent` (key missing, `getItem` returns null),
  `Payload.emptyStr` (stored empty string, falsy in JS like null),
  `Payload.malformed` (non-empty string rejected by `JSON.parse`, which
  throws), or `Payload.ok l` (well-formed serialized list `l`).
* JS exceptions from `JSON.parse` are modelled with `Option`: `none` means
  the parse threw; every `try`/`catch` in the source becomes a `match` whose
  `none` branch is the `catch` branch.
* `Array.prototype.sort` with a consistent comparator is a stable sort; it is
  modelled by a stable insertion sort on the comparator key.
-/

namespace EcoTracker

/-! Data model: the records as stored by the app. -/

structure Activity where
  id : String
  description : String
  category : String
  duration : String
  notes : String
  points : Int
  timestamp : Int
  deriving DecidableEq

structure Photo where
  id : String
  uri : String
  description : String
  timestamp : Int
  deriving DecidableEq

inductive Payload (α : Type) where
  | absent
  | emptyStr
  | malformed
  | ok (l : List α)
  deriving DecidableEq

/-- The two AsyncStorage keys used by the app. -/
structure Store where
  activities : Payload Activity
  photos : Payload Photo
  deriving DecidableEq

/-- Models `data ? JSON.parse(data) : []` from the source: a falsy slot
(absent key / empty string) yields `[]`, a malformed slot makes `JSON.parse`
throw (`none`), a well-formed slot yields its list. -/
def parsePayload : Payload α → Option (List α)
  | .absent => some []
  | .emptyStr => some []
  | .malformed => none
  | .ok l => some l

/-! Time: milliseconds, with calendar days via floor division. -/

def msPerDay : Int := 86400000

/-- The local calendar day of a millisecond timestamp (models
`new Date(t).toDateString()` under a fixed-offset timezone). -/
def dayOf (t : Int) : Int := Int.fdiv t msPerDay

/-- JS `String.prototype.trim`: strip whitespace from both ends.  (Defined on
the character list so that it evaluates by kernel reduction; the built-in
`String.trim` computes the same characters through `Substring` positions.) -/
def jsTrim (s : String) : String :=
  ⟨((s.data.dropWhile Char.isWhitespace).reverse.dropWhile Char.isWhitespace).reverse⟩

/-! JS `parseInt` (decimal): skip leading whitespace, optional sign, longest
digit prefix; `none` models `NaN`.  (The hex autodetection of bare `parseInt`
for `0x`-prefixed text is not relevant to any stored input and not modelled.) -/

def parseDigits (cs : List Char) : Option Nat :=
  let ds := cs.takeWhile Char.isDigit
  if ds.isEmpty then none
  else some (ds.foldl (fun n c => 10 * n + (c.toNat - 48)) 0)

def parseIntJS (s : String) : Option Int :=
  match s.data.dropWhile Char.isWhitespace with
  | '-' :: rest => (parseDigits rest).map (fun n => -(n : Int))
  | '+' :: rest => (parseDigits rest).map (fun n => (n : Int))
  | cs => (parseDigits cs).map (fun n => (n : Int))

/-! `AddActivityScreen` (second half of `PhotoScreen.tsx`). -/

/-- The `categories` array of `AddActivityScreen`. -/
def categories : List (String × Int) :=
  [("Energy Saving", 20), ("Transportation", 15), ("Recycling", 10),
   ("Water Conservation", 12), ("Food Waste Reduction", 8), ("Other", 5)]

/-- The `basePoints` lookup inside `calculatePoints`:
`categories.find(cat => cat.name === category)`, defaulting to 5. -/
def codeBase (category : String) : Int :=
  match categories.find? (fun c => c.1 == category) with
  | some c => c.2
  | none => 5

/-- `calculatePoints` from `AddActivityScreen`:
`basePoints + Math.min(parseInt(duration) || 0, 30)`.
`parseInt(duration) || 0` maps `NaN` to 0 and keeps every other value
(including negative ones). -/
def calculatePoints (category duration : String) : Int :=
  let durationBonus := (parseIntJS duration).getD 0
  codeBase category + min durationBonus 30

/-- Modelled from the spec's Category Table (Glossary): ordered list mapping
category name to base value, anything unknown treated as lowest tier. -/
def categoryBaseSpec (category : String) : Int :=
  if category = "Energy Saving" then 20
  else if category = "Transportation" then 15
  else if category = "Recycling" then 10
  else if category = "Water Conservation" then 12
  else if category = "Food Waste Reduction" then 8
  else 5

theorem codeBase_eq_spec (category : String) : codeBase category = categoryBaseSpec category := by
  by_cases h1 : category = "Energy Saving"
  · subst h1; rfl
  by_cases h2 : category = "Transportation"
  · subst h2; rfl
  by_cases h3 : category = "Recycling"
  · subst h3; rfl
  by_cases h4 : category = "Water Conservation"
  · subst h4; rfl
  by_cases h5 : category = "Food Waste Reduction"
  · subst h5; rfl
  by_cases h6 : category = "Other"
  · subst h6; rfl
  · simp only [codeBase, categories, categoryBaseSpec, List.find?,
      beq_eq_false_iff_ne.mpr (Ne.symm h1), beq_eq_false_iff_ne.mpr (Ne.symm h2),
      beq_eq_false_iff_ne.mpr (Ne.symm h3), beq_eq_false_iff_ne.mpr (Ne.symm h4),
      beq_eq_false_iff_ne.mpr (Ne.symm h5), beq_eq_false_iff_ne.mpr (Ne.symm h6),
      h1, h2, h3, h4, h5, h6, if_false]

/-! Stable sort, newest first.  `list.sort((a, b) => new Date(b.timestamp).getTime()
- new Date(a.timestamp).getTime())` is a stable sort descending on the
timestamp; it is modelled as a stable insertion sort on the key `ts`. -/

def insertTsDesc (ts : α → Int) (x : α) : List α → List α
  | [] => [x]
  | y :: l => if ts x < ts y then y :: insertTsDesc ts x l else x :: y :: l

def sortTsDesc (ts : α → Int) : List α → List α
  | [] => []
  | x :: l => insertTsDesc ts x (sortTsDesc ts l)

/-! `PhotoScreen`. -/

inductive PhotoResult where
  | saved (displayed : List Photo)
  | failed
  deriving DecidableEq

/-- `savePhoto` from `PhotoScreen`: builds the new record (the caption
defaults through JS `||`, which replaces only the empty string), appends it,
writes the collection back and displays it sorted newest first.  A parse
throw lands in the `catch` branch: the store is untouched and the failure
alert is shown. -/
def savePhoto (store : Store) (photoUri description : String) (id : String) (now : Int) :
    Store × PhotoResult :=
  match parsePayload store.photos with
  | none => (store, .failed)
  | some photosList =>
      let newPhoto : Photo :=
        { id := id, uri := photoUri,
          description := if description = "" then "Eco-friendly activity" else description,
          timestamp := now }
      let updated := photosList ++ [newPhoto]
      ({ store with photos := .ok updated }, .saved (sortTsDesc Photo.timestamp updated))

/-- `loadPhotos` from `PhotoScreen`: displays the stored collection sorted
newest first; a parse throw is caught and leaves the previously displayed
list unchanged. -/
def loadPhotos (store : Store) (shown : List Photo) : List Photo :=
  match parsePayload store.photos with
  | none => shown
  | some photosList => sortTsDesc Photo.timestamp photosList

/-! `AddActivityScreen.handleSaveActivity`. -/

inductive SaveResult where
  | saved (points : Int)
  | validationError (message : String)
  | saveFailed
  deriving DecidableEq

/-- `handleSaveActivity` from `AddActivityScreen`: validation first
(`!description.trim() || !category`, with one fixed message), then read,
append and write back the `activities` collection; a parse throw is caught
and surfaced as the save-failure alert with the store untouched. -/
def handleSaveActivity (store : Store) (description category duration notes : String)
    (id : String) (now : Int) : Store × SaveResult :=
  if jsTrim description = "" ∨ category = "" then
    (store, .validationError "Please fill in description and category")
  else
    match parsePayload store.activities with
    | none => (store, .saveFailed)
    | some activities =>
        let newActivity : Activity :=
          { id := id, description := jsTrim description, category := category,
            duration := jsTrim duration, notes := jsTrim notes,
            points := calculatePoints category duration, timestamp := now }
        ({ store with activities := .ok (activities ++ [newActivity]) },
         .saved newActivity.points)

/-! `StatsScreen`: the analytics computations. -/

/-- The `categories` object of `loadStatsData`, built by
`categories[a.category] = (categories[a.category] || 0) + a.points`.
JS object keys iterate in insertion order, so the object is an association
list whose keys appear in order of first occurrence. -/
def addPoints : List (String × Int) → String → Int → List (String × Int)
  | [], k, p => [(k, p)]
  | (k', v) :: rest, k, p =>
      if k' = k then (k', v + p) :: rest else (k', v) :: addPoints rest k p

def buildCategories (acts : List Activity) : List (String × Int) :=
  acts.foldl (fun m a => addPoints m a.category a.points) []

/-- `categories[k]` on the modelled object: `none` is JS `undefined`. -/
def lookupCat (m : List (String × Int)) (k : String) : Option Int :=
  (m.find? (fun kv => kv.1 == k)).map Prod.snd

/-- The comparison `categories[a] > categories[b]` of the reduce: any
comparison against `undefined` is false in JS. -/
def jsGtOpt : Option Int → Option Int → Bool
  | some x, some y => decide (y < x)
  | _, _ => false

def bestFold (m : List (String × Int)) (a : String) (ks : List String) : String :=
  ks.foldl (fun x y => if jsGtOpt (lookupCat m x) (lookupCat m y) then x else y) a

/-- `Object.keys(categories).reduce((a, b) => categories[a] > categories[b] ? a : b, 'None')`. -/
def bestCategory (acts : List Activity) : String :=
  let cats := buildCategories acts
  bestFold cats "None" (cats.map Prod.fst)

/-- Summed points of the records in one category (spec notion, used to state
the theorems about `buildCategories` and `bestCategory`). -/
def sumCat (acts : List Activity) (k : String) : Int :=
  ((acts.filter (fun a => a.category == k)).map Activity.points).sum

/-- `totalPoints`: `activityList.reduce((sum, a) => sum + a.points, 0)`. -/
def totalPointsOf (acts : List Activity) : Int :=
  acts.foldl (fun s a => s + a.points) 0

/-- The distinct active days of `calculateStreak` (`new Set(...)`, then a
sort that does not affect `includes`): day identifiers of the timestamps,
deduplicated and ordered newest first. -/
def uniqueDays (acts : List Activity) : List Int :=
  sortTsDesc (fun d => d) ((acts.map (fun a => dayOf a.timestamp)).dedup)

/-- The 30-iteration backward walk of `calculateStreak`
(`for (let i = 0; i < 30; i++)`): day `today - i` is checked; an active day
increments the streak, an inactive day other than today (`i > 0`) breaks.
The remaining iteration count `30 - i` is the structural fuel argument, so
the loop starts with fuel 30 at `i = 0`. -/
def streakGo (dates : List Int) (today : Int) : Nat → Nat → Nat → Nat
  | 0, _, streak => streak
  | fuel + 1, i, streak =>
      if (today - (i : Int)) ∈ dates then streakGo dates today fuel (i + 1) (streak + 1)
      else if 0 < i then streak
      else streakGo dates today fuel (i + 1) streak

/-- `calculateStreak` from `StatsScreen`. -/
def calculateStreak (acts : List Activity) (now : Int) : Nat :=
  if acts.isEmpty then 0
  else streakGo (uniqueDays acts) (dayOf now) 30 0 0

/-- Points in the trailing window: `new Date(a.timestamp) >= sevenDaysAgo`
where `sevenDaysAgo` is the current moment minus 7 days (fixed-offset
timezone, so exactly `7 * msPerDay` milliseconds).  Note the filter has no
upper bound. -/
def sevenDayPoints (acts : List Activity) (now : Int) : Int :=
  ((acts.filter (fun a => decide (now - 7 * msPerDay ≤ a.timestamp))).map Activity.points).sum

/-- `Math.round(n / 7)`.  `Math.round x = ⌊x + 1/2⌋`, and for `x = n / 7`
this is `⌊(2n + 7) / 14⌋`; since `2n + 7` is odd the quotient is never
exactly a half, and for integer `n` of realistic magnitude the double
computation is exact, so the floor form is the precise value. -/
def mathRoundDiv7 (n : Int) : Int := Int.fdiv (2 * n + 7) 14

/-- `averageDaily` of `loadStatsData`: `Math.round(recentPoints / 7)`. -/
def averageDailyLast7 (acts : List Activity) (now : Int) : Int :=
  mathRoundDiv7 (sevenDayPoints acts now)

/-- The `stats` React state of `StatsScreen`. -/
structure Stats where
  totalPoints : Int
  totalActivities : Nat
  averageDaily : Int
  bestCategory : String
  currentStreak : Nat
  deriving DecidableEq

/-- The initial `useState` values of `StatsScreen`. -/
def initialStats : Stats :=
  { totalPoints := 0, totalActivities := 0, averageDaily := 0,
    bestCategory := "None", currentStreak := 0 }

structure StatsState where
  stats : Stats
  activities : List Activity
  categoryStats : List (String × Int)
  deriving DecidableEq

def initialStatsState : StatsState :=
  { stats := initialStats, activities := [], categoryStats := [] }

/-- `loadStatsData` from `StatsScreen` as a transition on the screen state:
a parse throw is caught leaving the state unchanged; an empty list sets only
the `activities` state and returns early; otherwise every stat is
recomputed. -/
def loadStatsData (store : Store) (st : StatsState) (now : Int) : StatsState :=
  match parsePayload store.activities with
  | none => st
  | some activityList =>
      if activityList.isEmpty then { st with activities := [] }
      else
        { activities := activityList,
          categoryStats := buildCategories activityList,
          stats :=
            { totalPoints := totalPointsOf activityList,
              totalActivities := activityList.length,
              averageDaily := averageDailyLast7 activityList now,
              bestCategory := bestCategory activityList,
              currentStreak := calculateStreak activityList now } }

/-- The confirmed branch of `clearAllData`:
`AsyncStorage.multiRemove(['activities', 'photos'])` then `loadStatsData()`. -/
def clearAllData (st : StatsState) (now : Int) : Store × StatsState :=
  let cleared : Store := { activities := .absent, photos := .absent }
  (cleared, loadStatsData cleared st now)

/-! `HomeScreen.loadData`. -/

structure HomeState where
  totalPoints : Int
  todayPoints : Int
  recentActivities : List Activity
  deriving DecidableEq

def initialHomeState : HomeState :=
  { totalPoints := 0, todayPoints := 0, recentActivities := [] }

/-- `loadData` from `HomeScreen`: a parse throw is caught leaving the state
unchanged; otherwise the totals, today's total and the five most recent
records are recomputed. -/
def loadData (store : Store) (st : HomeState) (now : Int) : HomeState :=
  match parsePayload store.activities with
  | none => st
  | some activities =>
      { totalPoints := totalPointsOf activities,
        todayPoints :=
          totalPointsOf (activities.filter (fun a => dayOf a.timestamp == dayOf now)),
        recentActivities := (sortTsDesc Activity.timestamp activities).take 5 }

/-! Spec-side reference definitions, written from the spec's words, used to
state the claims against the code definitions above. -/

/-- Length of the longest run of consecutive active days `start`,
`start - 1`, ..., capped by `fuel` days. -/
def consecRun (dates : List Int) : Int → Nat → Nat
  | _, 0 => 0
  | start, fuel + 1 => if start ∈ dates then consecRun dates (start - 1) fuel + 1 else 0

/-- The spec's description of the streak: 1 for today if it is active (an
empty today does not terminate the scan), plus the consecutive active days
walking backward from yesterday, the whole scan bounded by 30 days. -/
def streakSpec (dates : List Int) (today : Int) : Nat :=
  (if today ∈ dates then 1 else 0) + consecRun dates (today - 1) 29

/-- The claim's 7-day window: records whose `createdAt` falls within the
trailing window that ENDS at the current moment (so with an upper bound,
unlike the code's filter). -/
def claimWindowPoints (acts : List Activity) (now : Int) : Int :=
  ((acts.filter (fun a =>
      decide (now - 7 * msPerDay ≤ a.timestamp) && decide (a.timestamp ≤ now))).map
    Activity.points).sum

/-! Concrete records used by the examples, witnesses and counterexamples. -/

def emptyStore : Store := { activities := Payload.absent, photos := Payload.absent }

def mkActivity (cat : String) (pts day : Int) : Activity :=
  { id := "1", description := "logged", category := cat, duration := "", notes := "",
    points := pts, timestamp := day * msPerDay + 3600000 }

/-- Streak example: activities on day 100 (today), day 99 and day 97 only. -/
def streakExActs : List Activity :=
  [mkActivity "Other" 5 100, mkActivity "Other" 5 99, mkActivity "Other" 5 97]

/-- Streak example without an activity today: days 99 and 97 only. -/
def streakExNoToday : List Activity :=
  [mkActivity "Other" 5 99, mkActivity "Other" 5 97]

/-- A current moment during day 100. -/
def streakExNow : Int := 100 * msPerDay + 7200000

/-- Tie example for `bestCategory`: one Energy Saving record worth 20 and two
Recycling records worth 10 each, so both categories sum to 20. -/
def tieES : Activity := mkActivity "Energy Saving" 20 100
def tieR1 : Activity := mkActivity "Recycling" 10 100
def tieR2 : Activity := mkActivity "Recycling" 10 99

/-- A record dated one millisecond after the current moment `0`. -/
def futureActivity : Activity :=
  { id := "9", description := "future", category := "Other", duration := "", notes := "",
    points := 7, timestamp := 1 }

def tiePhoto1 : Photo := { id := "1", uri := "u1", description := "c1", timestamp := 100 }
def tiePhoto2 : Photo := { id := "2", uri := "u2", description := "c2", timestamp := 100 }

/-- Store and loaded screen state used for the reset scenario: one Energy
Saving activity worth 20 points logged on day 100, one photo. -/
def resetAct : Activity := mkActivity "Energy Saving" 20 100
def resetStore : Store := { activities := Payload.ok [resetAct], photos := Payload.ok [tiePhoto1] }
def resetNow : Int := 100 * msPerDay + 7200000
def resetLoaded : StatsState := loadStatsData resetStore initialStatsState resetNow

/-- Previous screen state holding one already-loaded activity, used to show
what a malformed payload leaves behind. -/
def staleStatsState : StatsState :=
  { stats := initialStats, activities := [mkActivity "Other" 5 42], categoryStats := [] }

/-! Theorems. -/

theorem calculatePoints_eq_spec (category duration : String) :
    calculatePoints category duration
      = categoryBaseSpec category + min ((parseIntJS duration).getD 0) 30 := by
  unfold calculatePoints
  rw [codeBase_eq_spec]

theorem consecRun_nil (start : Int) (fuel : Nat) : consecRun [] start fuel = 0 := by
  cases fuel with
  | zero => rfl
  | succ n => simp [consecRun]

/-- The loop of `calculateStreak`, entered at `i ≥ 1` with `fuel` iterations
left, adds to the accumulator exactly the consecutive active run starting at
day `today - i`. -/
theorem streakGo_eq_consecRun (dates : List Int) (today : Int) :
    ∀ (fuel i streak : Nat), 1 ≤ i →
      streakGo dates today fuel i streak = streak + consecRun dates (today - (i : Int)) fuel := by
  intro fuel
  induction fuel with
  | zero =>
      intro i streak _
      simp [streakGo, consecRun]
  | succ n ih =>
      intro i streak hi
      by_cases hmem : (today - (i : Int)) ∈ dates
      · rw [show streakGo dates today (n + 1) i streak
              = streakGo dates today n (i + 1) (streak + 1) from by simp [streakGo, hmem]]
        rw [ih (i + 1) (streak + 1) (by omega)]
        rw [show today - ((i + 1 : Nat) : Int) = today - (i : Int) - 1 from by push_cast; ring]
        simp [consecRun, hmem]
        omega
      · have h0 : 0 < i := hi
        simp [streakGo, hmem, consecRun, h0]

/-- Claim C2 (confirmed): `calculateStreak` reduces every record to its local
calendar day and equals the spec's walk: one for an active today (an empty
today does not terminate the scan), plus the consecutive active days walking
back from yesterday, bounded by the 30-day lookback; the spec's example
(records on today, yesterday and 3 days ago only) gives 2, the no-record
case gives 0. -/
theorem calculateStreak_spec :
    (∀ (acts : List Activity) (now : Int),
        calculateStreak acts now = streakSpec (uniqueDays acts) (dayOf now)) ∧
    calculateStreak streakExActs streakExNow = 2 ∧
    calculateStreak streakExNoToday streakExNow = 1 ∧
    calculateStreak [] streakExNow = 0 := by
  refine ⟨?_, by decide, by decide, by decide⟩
  intro acts now
  unfold calculateStreak streakSpec
  by_cases hA : acts.isEmpty
  · rw [if_pos hA]
    have hnil : acts = [] := by
      cases acts with
      | nil => rfl
      | cons a l => simp at hA
    subst hnil
    simp [uniqueDays, sortTsDesc, consecRun_nil]
  · rw [if_neg hA]
    rw [show (30 : Nat) = 29 + 1 from rfl]
    by_cases hd : dayOf now ∈ uniqueDays acts
    · rw [show streakGo (uniqueDays acts) (dayOf now) (29 + 1) 0 0
            = streakGo (uniqueDays acts) (dayOf now) 29 1 1 from by simp [streakGo, hd]]
      rw [streakGo_eq_consecRun (uniqueDays acts) (dayOf now) 29 1 1 (le_refl 1)]
      rw [if_pos hd]
      norm_num
    · rw [show streakGo (uniqueDays acts) (dayOf now) (29 + 1) 0 0
            = streakGo (uniqueDays acts) (dayOf now) 29 1 0 from by simp [streakGo, hd]]
      rw [streakGo_eq_consecRun (uniqueDays acts) (dayOf now) 29 1 0 (le_refl 1)]
      rw [if_neg hd]
      norm_num

/-- Claim C1, counterexample: a validated `recordActivity` call with duration
text `"-5"` and category Recycling stores 5 points, while the claim's formula
`base + min(max(parsedDuration, 0), 30)` gives 10: the code never clamps a
negative parsed duration to 0. -/
theorem calculatePoints_negative_duration_counterexample :
    (handleSaveActivity emptyStore "Biked to work" "Recycling" "-5" "" "1" 0).2
      = SaveResult.saved 5 ∧
    categoryBaseSpec "Recycling" + min (max ((parseIntJS "-5").getD 0) 0) 30 = 10 ∧
    (5 : Int) ≠ 10 := by decide

/-- Claim C1 (amended): for every `recordActivity` call that passes
validation, the appended record's points equal the Category Table base value
plus `min(parsedDuration, 30)`, where a failed parse counts 0; the duration
contribution never exceeds 30 but a negative parsed duration is not clamped
to 0. -/
theorem recordActivity_points_formula (store : Store)
    (description category duration notes id : String) (now : Int) (acts : List Activity)
    (hdesc : jsTrim description ≠ "") (hcat : category ≠ "")
    (hparse : parsePayload store.activities = some acts) :
    ∃ rec : Activity,
      (handleSaveActivity store description category duration notes id now).1.activities
        = Payload.ok (acts ++ [rec]) ∧
      (handleSaveActivity store description category duration notes id now).2
        = SaveResult.saved rec.points ∧
      rec.points = categoryBaseSpec category + min ((parseIntJS duration).getD 0) 30 ∧
      rec.points ≤ categoryBaseSpec category + 30 ∧
      (parseIntJS duration = none → rec.points = categoryBaseSpec category) := by
  unfold handleSaveActivity
  rw [if_neg (by simp [hdesc, hcat]), hparse]
  refine ⟨_, rfl, rfl, ?_, ?_, ?_⟩
  · show calculatePoints category duration = _
    exact calculatePoints_eq_spec category duration
  · show calculatePoints category duration ≤ _
    rw [calculatePoints_eq_spec category duration]
    have := min_le_right ((parseIntJS duration).getD 0) 30
    omega
  · intro hnone
    show calculatePoints category duration = _
    rw [calculatePoints_eq_spec category duration, hnone]
    simp

/-- Witness for claim C1: `recordActivity_points_formula` applied at a concrete input. -/
theorem recordActivity_points_formula_witness :
    ∃ rec : Activity,
      (handleSaveActivity emptyStore "Biked to work" "Transportation" "12" "" "7" 0).1.activities
        = Payload.ok ([] ++ [rec]) ∧
      (handleSaveActivity emptyStore "Biked to work" "Transportation" "12" "" "7" 0).2
        = SaveResult.saved rec.points ∧
      rec.points = categoryBaseSpec "Transportation" + min ((parseIntJS "12").getD 0) 30 ∧
      rec.points ≤ categoryBaseSpec "Transportation" + 30 ∧
      (parseIntJS "12" = none → rec.points = categoryBaseSpec "Transportation") :=
  recordActivity_points_formula emptyStore "Biked to work" "Transportation" "12" "" "7" 0 []
    (by decide) (by decide) (by decide)

/-- Claim C4, counterexample: a record dated 1 millisecond after the current
moment is counted by the code's window filter (which has no upper bound), so
the code's average is 1 while the claim's window ending at the current moment
yields 0. -/
theorem averageDaily_future_record_counterexample :
    averageDailyLast7 [futureActivity] 0 = 1 ∧
    mathRoundDiv7 (claimWindowPoints [futureActivity] 0) = 0 ∧
    (1 : Int) ≠ 0 := by decide

/-- Claim C4 (amended): `averageDaily` is the round-half-up nearest integer
of (window sum / 7), where the window holds every record with `createdAt` at
or after the current moment minus 7 days, with no upper bound; the spec's
example sums 35, 36, 38 give 5 and 39 gives 6.  The two inequalities say the
result is within half of the exact quotient, with the upper comparison
strict, i.e. exactly round-half-up. -/
theorem averageDaily_rounding :
    (∀ (acts : List Activity) (now : Int),
        14 * averageDailyLast7 acts now - 7 ≤ 2 * sevenDayPoints acts now ∧
        2 * sevenDayPoints acts now < 14 * averageDailyLast7 acts now + 7) ∧
    averageDailyLast7 [mkActivity "Other" 35 0] 3600000 = 5 ∧
    averageDailyLast7 [mkActivity "Other" 36 0] 3600000 = 5 ∧
    averageDailyLast7 [mkActivity "Other" 38 0] 3600000 = 5 ∧
    averageDailyLast7 [mkActivity "Other" 39 0] 3600000 = 6 := by
  refine ⟨?_, by decide, by decide, by decide, by decide⟩
  intro acts now
  unfold averageDailyLast7 mathRoundDiv7
  rw [Int.fdiv_eq_ediv _ (by norm_num)]
  omega

/-- Claim C6, counterexample: the two distinct validation failures (blank
description with a category selected, and a filled description with no
category) produce the identical fixed error message, so the report does not
identify which field is missing. -/
theorem validation_message_not_field_specific :
    (handleSaveActivity emptyStore "   " "Recycling" "" "" "1" 0).2
      = SaveResult.validationError "Please fill in description and category" ∧
    (handleSaveActivity emptyStore "Planted a tree" "" "" "" "1" 0).2
      = SaveResult.validationError "Please fill in description and category" ∧
    jsTrim "   " = "" ∧ ("Planted a tree" : String) ≠ "" := by decide

/-- Claim C6 (amended): a `recordActivity` call whose description is empty
after trimming or whose category is missing reports a validation error with
the one fixed message naming both fields (not the specific missing one) and
leaves the whole store exactly as it was. -/
theorem validation_failure_no_write (store : Store)
    (description category duration notes id : String) (now : Int)
    (h : jsTrim description = "" ∨ category = "") :
    handleSaveActivity store description category duration notes id now
      = (store, SaveResult.validationError "Please fill in description and category") := by
  unfold handleSaveActivity
  rw [if_pos h]

/-- Witness for claim C6: `validation_failure_no_write` applied at a concrete input. -/
theorem validation_failure_no_write_witness :
    handleSaveActivity emptyStore "" "Recycling" "5" "" "1" 0
      = (emptyStore, SaveResult.validationError "Please fill in description and category") :=
  validation_failure_no_write emptyStore "" "Recycling" "5" "" "1" 0 (Or.inl (by decide))

/-- Claim C7, counterexample: when the persisted payload is malformed, the
caught parse error makes `loadStatsData` keep the previously loaded state
unchanged instead of yielding the empty sequence. -/
theorem load_malformed_keeps_previous_state :
    (loadStatsData { activities := Payload.malformed, photos := Payload.absent }
        staleStatsState 0).activities
      = [mkActivity "Other" 5 42] ∧
    [mkActivity "Other" 5 42] ≠ ([] : List Activity) := by decide

/-- Claim C7 (amended): an absent key and an empty/null payload load as the
empty collection; a malformed payload makes every loader catch the parse
error (nothing propagates, all loaders are total functions) but abort
without producing a sequence, leaving the previous screen state unchanged. -/
theorem load_payload_handling :
    (∀ (ph : Payload Photo) (st : StatsState) (now : Int),
        (loadStatsData { activities := Payload.absent, photos := ph } st now).activities = []) ∧
    (∀ (ph : Payload Photo) (st : StatsState) (now : Int),
        (loadStatsData { activities := Payload.emptyStr, photos := ph } st now).activities = []) ∧
    (∀ (ph : Payload Photo) (st : StatsState) (now : Int),
        loadStatsData { activities := Payload.malformed, photos := ph } st now = st) ∧
    (∀ (ph : Payload Photo) (st : HomeState) (now : Int),
        loadData { activities := Payload.absent, photos := ph } st now = initialHomeState) ∧
    (∀ (ph : Payload Photo) (st : HomeState) (now : Int),
        loadData { activities := Payload.emptyStr, photos := ph } st now = initialHomeState) ∧
    (∀ (ph : Payload Photo) (st : HomeState) (now : Int),
        loadData { activities := Payload.malformed, photos := ph } st now = st) ∧
    (∀ (ac : Payload Activity) (shown : List Photo),
        loadPhotos { activities := ac, photos := Payload.absent } shown = [] ∧
        loadPhotos { activities := ac, photos := Payload.malformed } shown = shown) := by
  refine ⟨?_, ?_, ?_, ?_, ?_, ?_, ?_⟩ <;> intros <;> first | exact ⟨rfl, rfl⟩ | rfl

/-- Claim C8, counterexample: a whitespace-only caption is truthy in JS, so
the stored caption is the whitespace string itself even though it is empty
after trimming; the placeholder is not applied. -/
theorem caption_whitespace_counterexample :
    (savePhoto emptyStore "photo.jpg" " " "1" 0).1.photos
      = Payload.ok [{ id := "1", uri := "photo.jpg", description := " ", timestamp := 0 }] ∧
    jsTrim " " = "" ∧
    (" " : String) ≠ "Eco-friendly activity" := by decide

/-- Claim C8 (amended): `recordPhoto` replaces the caption with the fixed
placeholder exactly when the caption is the empty string (JS falsiness), not
when it is merely empty after trimming; any non-empty caption, including
whitespace-only ones, is stored as given. -/
theorem savePhoto_caption_default (store : Store) (photoUri caption id : String) (now : Int)
    (photosList : List Photo) (hparse : parsePayload store.photos = some photosList) :
    ∃ p : Photo,
      (savePhoto store photoUri caption id now).1.photos = Payload.ok (photosList ++ [p]) ∧
      (savePhoto store photoUri caption id now).2
        = PhotoResult.saved (sortTsDesc Photo.timestamp (photosList ++ [p])) ∧
      p.uri = photoUri ∧ p.timestamp = now ∧
      p.description = (if caption = "" then "Eco-friendly activity" else caption) ∧
      (caption ≠ "" → p.description = caption) := by
  unfold savePhoto
  rw [hparse]
  exact ⟨_, rfl, rfl, rfl, rfl, rfl, fun h => if_neg h⟩

/-- Witness for claim C8: `savePhoto_caption_default` applied at a concrete input. -/
theorem savePhoto_caption_default_witness :
    ∃ p : Photo,
      (savePhoto emptyStore "photo.jpg" "" "3" 5).1.photos = Payload.ok ([] ++ [p]) ∧
      (savePhoto emptyStore "photo.jpg" "" "3" 5).2
        = PhotoResult.saved (sortTsDesc Photo.timestamp ([] ++ [p])) ∧
      p.uri = "photo.jpg" ∧ p.timestamp = 5 ∧
      p.description = (if ("" : String) = "" then "Eco-friendly activity" else "") ∧
      (("" : String) ≠ "" → p.description = "") :=
  savePhoto_caption_default emptyStore "photo.jpg" "" "3" 5 [] (by decide)

theorem jsGtOpt_none_left (x : Option Int) : jsGtOpt none x = false := by
  cases x <;> rfl

theorem lookupCat_addPoints_self (m : List (String × Int)) (k : String) (p : Int) :
    lookupCat (addPoints m k p) k = some ((lookupCat m k).getD 0 + p) := by
  induction m with
  | nil => simp [addPoints, lookupCat, List.find?]
  | cons kv rest ih =>
      obtain ⟨k', v⟩ := kv
      by_cases h : k' = k
      · subst h
        simp [addPoints, lookupCat, List.find?]
      · have hbf : (k' == k) = false := by simp [h]
        simp only [addPoints, if_neg h]
        simp only [lookupCat, List.find?, hbf] at ih ⊢
        exact ih

theorem lookupCat_addPoints_ne (m : List (String × Int)) (k q : String) (p : Int)
    (h : q ≠ k) :
    lookupCat (addPoints m k p) q = lookupCat m q := by
  have hkq : (k == q) = false := beq_eq_false_iff_ne.mpr (Ne.symm h)
  induction m with
  | nil => simp [addPoints, lookupCat, List.find?, hkq]
  | cons kv rest ih =>
      obtain ⟨k', v⟩ := kv
      by_cases hk : k' = k
      · subst hk
        simp [addPoints, lookupCat, List.find?, hkq]
      · simp only [addPoints, if_neg hk]
        by_cases hq : k' = q
        · subst hq
          simp [lookupCat, List.find?]
        · have hbf : (k' == q) = false := by simp [hq]
          simp only [lookupCat, List.find?, hbf] at ih ⊢
          exact ih

theorem lookupCat_isSome_iff (m : List (String × Int)) (k : String) :
    (lookupCat m k).isSome ↔ k ∈ m.map Prod.fst := by
  unfold lookupCat
  constructor
  · intro hs
    cases hf : m.find? (fun kv => kv.1 == k) with
    | none =>
        rw [hf] at hs
        simp at hs
    | some kv =>
        have hkk : kv.1 = k := by simpa using List.find?_some hf
        exact List.mem_map.mpr ⟨kv, List.mem_of_find?_eq_some hf, hkk⟩
  · intro hk
    obtain ⟨kv, hkv, rfl⟩ := List.mem_map.mp hk
    cases hf : m.find? (fun kv' => kv'.1 == kv.1) with
    | some x => simp [hf]
    | none =>
        exfalso
        have := List.find?_eq_none.mp hf kv hkv
        simp at this

theorem sumCat_cons_self (a : Activity) (acts : List Activity) (k : String)
    (h : a.category = k) :
    sumCat (a :: acts) k = a.points + sumCat acts k := by
  have hb : (a.category == k) = true := by simp [h]
  simp [sumCat, List.filter_cons, hb]

theorem sumCat_cons_ne (a : Activity) (acts : List Activity) (k : String)
    (h : a.category ≠ k) :
    sumCat (a :: acts) k = sumCat acts k := by
  have hb : (a.category == k) = false := by simp [h]
  simp [sumCat, List.filter_cons, hb]

theorem lookupCat_fold_some (acts : List Activity) :
    ∀ (m : List (String × Int)) (k : String) (v : Int),
      lookupCat m k = some v →
      lookupCat (acts.foldl (fun m a => addPoints m a.category a.points) m) k
        = some (v + sumCat acts k) := by
  induction acts with
  | nil =>
      intro m k v h
      simpa [sumCat] using h
  | cons a acts ih =>
      intro m k v h
      rw [List.foldl_cons]
      by_cases hc : a.category = k
      · subst hc
        have h1 : lookupCat (addPoints m a.category a.points) a.category
            = some (v + a.points) := by
          rw [lookupCat_addPoints_self, h]
          rfl
        rw [ih _ _ _ h1, sumCat_cons_self a acts _ rfl]
        congr 1
        ring
      · have h1 : lookupCat (addPoints m a.category a.points) k = lookupCat m k :=
          lookupCat_addPoints_ne m a.category k a.points (fun he => hc he.symm)
        rw [ih _ _ _ (h1.trans h), sumCat_cons_ne a acts k hc]

theorem lookupCat_fold_none (acts : List Activity) :
    ∀ (m : List (String × Int)) (k : String),
      lookupCat m k = none →
      lookupCat (acts.foldl (fun m a => addPoints m a.category a.points) m) k
        = if acts.any (fun a => a.category == k) then some (sumCat acts k) else none := by
  induction acts with
  | nil =>
      intro m k h
      simpa using h
  | cons a acts ih =>
      intro m k h
      rw [List.foldl_cons]
      by_cases hc : a.category = k
      · subst hc
        have h1 : lookupCat (addPoints m a.category a.points) a.category
            = some (0 + a.points) := by
          rw [lookupCat_addPoints_self, h]
          rfl
        rw [lookupCat_fold_some acts _ _ _ h1, sumCat_cons_self a acts _ rfl]
        rw [if_pos (by simp [List.any_cons])]
        congr 1
        ring
      · have h1 : lookupCat (addPoints m a.category a.points) k = none :=
          (lookupCat_addPoints_ne m a.category k a.points (fun he => hc he.symm)).trans h
        rw [ih _ _ h1, sumCat_cons_ne a acts k hc]
        have hb : (a.category == k) = false := by simp [hc]
        simp [List.any_cons, hb]

theorem lookupCat_buildCategories (acts : List Activity) (k : String) :
    lookupCat (buildCategories acts) k
      = if acts.any (fun a => a.category == k) then some (sumCat acts k) else none :=
  lookupCat_fold_none acts [] k rfl

theorem mem_keys_buildCategories (acts : List Activity) (k : String) :
    k ∈ (buildCategories acts).map Prod.fst ↔ acts.any (fun a => a.category == k) = true := by
  rw [← lookupCat_isSome_iff, lookupCat_buildCategories]
  by_cases h : acts.any (fun a => a.category == k) = true
  · simp [h]
  · simp [h]

theorem lookupCat_buildCategories_of_mem (acts : List Activity) (k : String)
    (hk : k ∈ (buildCategories acts).map Prod.fst) :
    lookupCat (buildCategories acts) k = some (sumCat acts k) := by
  rw [lookupCat_buildCategories, if_pos ((mem_keys_buildCategories acts k).mp hk)]

theorem bestFold_cons (m : List (String × Int)) (a k : String) (ks : List String) :
    bestFold m a (k :: ks)
      = bestFold m (if jsGtOpt (lookupCat m a) (lookupCat m k) then a else k) ks := rfl

/-- The reduce of `bestCategory`: starting from a seed that carries a value,
the fold either keeps the seed (then every listed key is strictly below the
seed's value) or lands on a listed key that is maximal, with every key after
it strictly below (ties are lost to the later key). -/
theorem bestFold_lastMax (m : List (String × Int)) :
    ∀ (ks : List String) (a : String) (va : Int),
      lookupCat m a = some va →
      (∀ k ∈ ks, ∃ w, lookupCat m k = some w) →
      (bestFold m a ks = a ∧ ∀ k ∈ ks, ∀ w, lookupCat m k = some w → w < va) ∨
      (∃ v pre post, lookupCat m (bestFold m a ks) = some v ∧ va ≤ v ∧
        ks = pre ++ bestFold m a ks :: post ∧
        (∀ k ∈ pre, ∀ w, lookupCat m k = some w → w ≤ v) ∧
        (∀ k ∈ post, ∀ w, lookupCat m k = some w → w < v)) := by
  intro ks
  induction ks with
  | nil =>
      intro a va hva _
      exact Or.inl ⟨rfl, by simp⟩
  | cons k ks ih =>
      intro a va hva hks
      obtain ⟨wk, hwk⟩ := hks k (List.mem_cons_self k ks)
      have hks' : ∀ k' ∈ ks, ∃ w, lookupCat m k' = some w :=
        fun k' hk' => hks k' (List.mem_cons_of_mem k hk')
      rw [bestFold_cons, hva, hwk]
      by_cases hlt : wk < va
      · rw [if_pos (by simp [jsGtOpt, hlt])]
        rcases ih a va hva hks' with ⟨he, hall⟩ | ⟨v, pre, post, h1, h2, h3, h4, h5⟩
        · refine Or.inl ⟨he, ?_⟩
          intro k' hk' w hw
          rcases List.mem_cons.mp hk' with rfl | hk''
          · have hwwk : w = wk := by
              rw [hwk] at hw
              exact (Option.some.inj hw).symm
            omega
          · exact hall k' hk'' w hw
        · refine Or.inr ⟨v, k :: pre, post, h1, h2, by rw [List.cons_append]; exact congrArg (List.cons k) h3, ?_, h5⟩
          intro k' hk' w hw
          rcases List.mem_cons.mp hk' with rfl | hk''
          · have hwwk : w = wk := by
              rw [hwk] at hw
              exact (Option.some.inj hw).symm
            omega
          · exact h4 k' hk'' w hw
      · rw [if_neg (by simp [jsGtOpt, hlt])]
        rcases ih k wk hwk hks' with ⟨he, hall⟩ | ⟨v, pre, post, h1, h2, h3, h4, h5⟩
        · refine Or.inr ⟨wk, [], ks, ?_, by omega, by simp [he], by simp, hall⟩
          rw [he]
          exact hwk
        · refine Or.inr ⟨v, k :: pre, post, h1, by omega, by rw [List.cons_append]; exact congrArg (List.cons k) h3, ?_, h5⟩
          intro k' hk' w hw
          rcases List.mem_cons.mp hk' with rfl | hk''
          · have hwwk : w = wk := by
              rw [hwk] at hw
              exact (Option.some.inj hw).symm
            omega
          · exact h4 k' hk'' w hw

/-- Claim C3, counterexample: with equal 20-point sums for Energy Saving and
Recycling, the reduce picks the key whose first occurrence among the records
is later, so the result depends on the record order and is not the Category
Table's first entry (reversing the records flips the answer). -/
theorem bestCategory_tie_order_counterexample :
    bestCategory [tieES, tieR1, tieR2] = "Recycling" ∧
    bestCategory [tieR1, tieR2, tieES] = "Energy Saving" ∧
    sumCat [tieES, tieR1, tieR2] "Energy Saving" = 20 ∧
    sumCat [tieES, tieR1, tieR2] "Recycling" = 20 := by decide

/-- Claim C3 (amended): with zero activities `bestCategory` is the sentinel
"None"; for a non-empty collection it is a category occurring in the
collection whose summed points are maximal, and among the keys (listed in
order of first occurrence in the record list) every key after the chosen one
has a strictly smaller sum: a tie is resolved to the key whose first
occurrence is LATEST, so the tie-break depends on record order, not on the
Category Table's declaration order. -/
theorem bestCategory_lastMax :
    bestCategory [] = "None" ∧
    ∀ (acts : List Activity), acts ≠ [] →
      ∃ v pre post,
        lookupCat (buildCategories acts) (bestCategory acts) = some v ∧
        v = sumCat acts (bestCategory acts) ∧
        (buildCategories acts).map Prod.fst = pre ++ bestCategory acts :: post ∧
        (∀ k ∈ pre, sumCat acts k ≤ v) ∧
        (∀ k ∈ post, sumCat acts k < v) ∧
        (∀ a ∈ acts, sumCat acts a.category ≤ v) := by
  refine ⟨rfl, ?_⟩
  intro acts hne
  have hval_eq : ∀ k ∈ (buildCategories acts).map Prod.fst,
      lookupCat (buildCategories acts) k = some (sumCat acts k) :=
    fun k hk => lookupCat_buildCategories_of_mem acts k hk
  have hvals : ∀ k ∈ (buildCategories acts).map Prod.fst,
      ∃ w, lookupCat (buildCategories acts) k = some w :=
    fun k hk => ⟨sumCat acts k, hval_eq k hk⟩
  suffices hsuff : ∃ v pre post,
      lookupCat (buildCategories acts) (bestCategory acts) = some v ∧
      (buildCategories acts).map Prod.fst = pre ++ bestCategory acts :: post ∧
      (∀ k ∈ pre, ∀ w, lookupCat (buildCategories acts) k = some w → w ≤ v) ∧
      (∀ k ∈ post, ∀ w, lookupCat (buildCategories acts) k = some w → w < v) by
    obtain ⟨v, pre, post, h1, h3, h4, h5⟩ := hsuff
    have hbmem : bestCategory acts ∈ (buildCategories acts).map Prod.fst := by
      rw [h3]
      exact List.mem_append_right _ (List.mem_cons_self _ _)
    have hveq : v = sumCat acts (bestCategory acts) :=
      Option.some.inj (h1.symm.trans (hval_eq _ hbmem))
    refine ⟨v, pre, post, h1, hveq, h3, ?_, ?_, ?_⟩
    · intro k hk
      have hkmem : k ∈ (buildCategories acts).map Prod.fst := by
        rw [h3]
        exact List.mem_append_left _ hk
      exact h4 k hk _ (hval_eq k hkmem)
    · intro k hk
      have hkmem : k ∈ (buildCategories acts).map Prod.fst := by
        rw [h3]
        exact List.mem_append_right _ (List.mem_cons_of_mem _ hk)
      exact h5 k hk _ (hval_eq k hkmem)
    · intro a ha
      have hamem : a.category ∈ (buildCategories acts).map Prod.fst := by
        rw [mem_keys_buildCategories, List.any_eq_true]
        exact ⟨a, ha, by simp⟩
      have hamem' := hamem
      rw [h3] at hamem'
      rcases List.mem_append.mp hamem' with hpre | hmid
      · exact h4 _ hpre _ (hval_eq _ hamem)
      · rcases List.mem_cons.mp hmid with heq | hpost
        · rw [heq, ← hveq]
        · exact le_of_lt (h5 _ hpost _ (hval_eq _ hamem))
  obtain ⟨a0, acts', rfl⟩ : ∃ a0 acts', acts = a0 :: acts' := by
    cases acts with
    | nil => exact absurd rfl hne
    | cons a0 acts' => exact ⟨a0, acts', rfl⟩
  have hk0cat : a0.category ∈ (buildCategories (a0 :: acts')).map Prod.fst := by
    rw [mem_keys_buildCategories, List.any_eq_true]
    exact ⟨a0, List.mem_cons_self _ _, by simp⟩
  cases hK : (buildCategories (a0 :: acts')).map Prod.fst with
  | nil =>
      rw [hK] at hk0cat
      simp at hk0cat
  | cons k0 krest =>
      have hbc : bestCategory (a0 :: acts')
          = bestFold (buildCategories (a0 :: acts')) "None" (k0 :: krest) := by
        rw [← hK]
        rfl
      have hk0mem : k0 ∈ (buildCategories (a0 :: acts')).map Prod.fst := by
        rw [hK]
        exact List.mem_cons_self _ _
      have hkrest : ∀ k ∈ krest, ∃ w, lookupCat (buildCategories (a0 :: acts')) k = some w :=
        fun k hk => hvals k (by rw [hK]; exact List.mem_cons_of_mem _ hk)
      cases hN : lookupCat (buildCategories (a0 :: acts')) "None" with
      | none =>
          obtain ⟨w0, hw0⟩ := hvals k0 hk0mem
          have hstep : bestFold (buildCategories (a0 :: acts')) "None" (k0 :: krest)
              = bestFold (buildCategories (a0 :: acts')) k0 krest := by
            rw [bestFold_cons, hN, jsGtOpt_none_left]
            simp
          rcases bestFold_lastMax (buildCategories (a0 :: acts')) krest k0 w0 hw0 hkrest with
            ⟨he, hall⟩ | ⟨v, pre, post, h1, h2, h3, h4, h5⟩
          · refine ⟨w0, [], krest, ?_, ?_, ?_, ?_⟩
            · rw [hbc, hstep, he]
              exact hw0
            · rw [hbc, hstep, he]
              rfl
            · intro k hk
              exact absurd hk (List.not_mem_nil k)
            · intro k hk w hw
              exact hall k hk w hw
          · refine ⟨v, k0 :: pre, post, ?_, ?_, ?_, ?_⟩
            · rw [hbc, hstep]
              exact h1
            · rw [hbc, hstep, List.cons_append]
              exact congrArg (List.cons k0) h3
            · intro k hk w hw
              rcases List.mem_cons.mp hk with rfl | hk'
              · have hww0 : w = w0 := Option.some.inj (hw.symm.trans hw0)
                omega
              · exact h4 k hk' w hw
            · intro k hk w hw
              exact h5 k hk w hw
      | some v0 =>
          rcases bestFold_lastMax (buildCategories (a0 :: acts')) (k0 :: krest) "None" v0 hN
              (fun k hk => hvals k (by rw [hK]; exact hk)) with
            ⟨he, hall⟩ | ⟨v, pre, post, h1, h2, h3, h4, h5⟩
          · exfalso
            have hNmem : "None" ∈ (buildCategories (a0 :: acts')).map Prod.fst := by
              rw [← lookupCat_isSome_iff, hN]
              rfl
            have hNin : "None" ∈ k0 :: krest := by
              rw [← hK]
              exact hNmem
            exact lt_irrefl v0 (hall "None" hNin v0 hN)
          · refine ⟨v, pre, post, ?_, ?_, h4, h5⟩
            · rw [hbc]
              exact h1
            · rw [hbc]
              exact h3

/-- Witness for claim C3: `bestCategory_lastMax` applied at a concrete input. -/
theorem bestCategory_lastMax_witness :
    ∃ v pre post,
      lookupCat (buildCategories [tieES, tieR1, tieR2])
          (bestCategory [tieES, tieR1, tieR2]) = some v ∧
      v = sumCat [tieES, tieR1, tieR2] (bestCategory [tieES, tieR1, tieR2]) ∧
      (buildCategories [tieES, tieR1, tieR2]).map Prod.fst
        = pre ++ bestCategory [tieES, tieR1, tieR2] :: post ∧
      (∀ k ∈ pre, sumCat [tieES, tieR1, tieR2] k ≤ v) ∧
      (∀ k ∈ post, sumCat [tieES, tieR1, tieR2] k < v) ∧
      (∀ a ∈ [tieES, tieR1, tieR2], sumCat [tieES, tieR1, tieR2] a.category ≤ v) :=
  bestCategory_lastMax.2 [tieES, tieR1, tieR2] (by decide)

/-- Claim C5 (code bug evaluated on the failing input): after `clearAllData`
on a store holding one 20-point activity, both collections load empty and a
subsequent `recordActivity` and `recordPhoto` succeed normally, but
`loadStatsData` returns early on the now-empty list, so the displayed
snapshot keeps the pre-reset values (20 points, best category Energy
Saving) instead of the recomputed all-zero/None base case. -/
theorem clearAllData_stale_snapshot :
    resetLoaded.stats.totalPoints = 20 ∧
    parsePayload (clearAllData resetLoaded resetNow).1.activities = some [] ∧
    parsePayload (clearAllData resetLoaded resetNow).1.photos = some [] ∧
    (handleSaveActivity (clearAllData resetLoaded resetNow).1
        "Recycled bottles" "Recycling" "" "" "2" resetNow).2 = SaveResult.saved 10 ∧
    (savePhoto (clearAllData resetLoaded resetNow).1 "u9" "cap" "9" resetNow).2
      = PhotoResult.saved
          [{ id := "9", uri := "u9", description := "cap", timestamp := resetNow }] ∧
    (clearAllData resetLoaded resetNow).2.activities = [] ∧
    (clearAllData resetLoaded resetNow).2.stats.totalPoints = 20 ∧
    (clearAllData resetLoaded resetNow).2.stats.bestCategory = "Energy Saving" ∧
    (clearAllData resetLoaded resetNow).2.stats ≠ initialStats := by decide

theorem mem_insertTsDesc (ts : α → Int) (x : α) (l : List α) (z : α) :
    z ∈ insertTsDesc ts x l ↔ z = x ∨ z ∈ l := by
  induction l with
  | nil => simp [insertTsDesc]
  | cons y l ih =>
      unfold insertTsDesc
      by_cases h : ts x < ts y
      · simp only [if_pos h, List.mem_cons, ih]
        tauto
      · simp only [if_neg h, List.mem_cons]

theorem pairwise_insertTsDesc (ts : α → Int) (x : α) (l : List α)
    (h : l.Pairwise (fun a b => ts b ≤ ts a)) :
    (insertTsDesc ts x l).Pairwise (fun a b => ts b ≤ ts a) := by
  induction l with
  | nil => simp [insertTsDesc]
  | cons y l ih =>
      rw [List.pairwise_cons] at h
      unfold insertTsDesc
      by_cases hc : ts x < ts y
      · rw [if_pos hc, List.pairwise_cons]
        refine ⟨fun z hz => ?_, ih h.2⟩
        rcases (mem_insertTsDesc ts x l z).mp hz with rfl | hz'
        · exact le_of_lt hc
        · exact h.1 z hz'
      · rw [if_neg hc, List.pairwise_cons]
        push_neg at hc
        refine ⟨fun z hz => ?_, List.pairwise_cons.mpr h⟩
        rcases List.mem_cons.mp hz with rfl | hz'
        · exact hc
        · exact le_trans (h.1 z hz') hc

theorem pairwise_sortTsDesc (ts : α → Int) (l : List α) :
    (sortTsDesc ts l).Pairwise (fun a b => ts b ≤ ts a) := by
  induction l with
  | nil => simp [sortTsDesc]
  | cons x l ih => exact pairwise_insertTsDesc ts x (sortTsDesc ts l) ih

theorem filter_insertTsDesc_self (ts : α → Int) (x : α) (l : List α) :
    (insertTsDesc ts x l).filter (fun a => ts a == ts x)
      = x :: l.filter (fun a => ts a == ts x) := by
  induction l with
  | nil => simp [insertTsDesc]
  | cons y l ih =>
      unfold insertTsDesc
      by_cases hc : ts x < ts y
      · have hy : (ts y == ts x) = false := by
          simp only [beq_eq_false_iff_ne]
          omega
        rw [if_pos hc]
        simp only [List.filter, hy]
        exact ih
      · rw [if_neg hc]
        simp [List.filter]

theorem filter_insertTsDesc_ne (ts : α → Int) (x : α) (l : List α) (t : Int)
    (hx : ts x ≠ t) :
    (insertTsDesc ts x l).filter (fun a => ts a == t)
      = l.filter (fun a => ts a == t) := by
  have hxf : (ts x == t) = false := by simp only [beq_eq_false_iff_ne]; exact hx
  induction l with
  | nil => simp [insertTsDesc, List.filter, hxf]
  | cons y l ih =>
      unfold insertTsDesc
      by_cases hc : ts x < ts y
      · rw [if_pos hc]
        simp only [List.filter]
        rw [ih]
      · rw [if_neg hc]
        simp only [List.filter, hxf]

/-- Stability of the modelled JS sort: the records carrying any fixed
timestamp appear in the sorted output in exactly their original order. -/
theorem filter_sortTsDesc (ts : α → Int) (l : List α) (t : Int) :
    (sortTsDesc ts l).filter (fun a => ts a == t) = l.filter (fun a => ts a == t) := by
  induction l with
  | nil => rfl
  | cons x l ih =>
      unfold sortTsDesc
      by_cases h : ts x = t
      · subst h
        rw [filter_insertTsDesc_self, ih]
        simp [List.filter]
      · rw [filter_insertTsDesc_ne ts x (sortTsDesc ts l) t h, ih]
        have hxf : (ts x == t) = false := by simp only [beq_eq_false_iff_ne]; exact h
        simp [List.filter, hxf]

theorem perm_insertTsDesc (ts : α → Int) (x : α) (l : List α) :
    (insertTsDesc ts x l).Perm (x :: l) := by
  induction l with
  | nil => simp [insertTsDesc]
  | cons y l ih =>
      unfold insertTsDesc
      by_cases hc : ts x < ts y
      · rw [if_pos hc]
        exact (ih.cons y).trans (List.Perm.swap x y l)
      · rw [if_neg hc]

theorem perm_sortTsDesc (ts : α → Int) (l : List α) : (sortTsDesc ts l).Perm l := by
  induction l with
  | nil => simp [sortTsDesc]
  | cons x l ih => exact (perm_insertTsDesc ts x (sortTsDesc ts l)).trans (ih.cons x)

/-- Claim C9, counterexample: saving a photo whose timestamp equals that of
an already stored photo displays the earlier-inserted record first, not the
more recently inserted one. -/
theorem photo_tie_order_counterexample :
    (savePhoto { activities := Payload.absent, photos := Payload.ok [tiePhoto1] }
        "u2" "c2" "2" 100).2
      = PhotoResult.saved [tiePhoto1, tiePhoto2] ∧
    tiePhoto1.timestamp = tiePhoto2.timestamp ∧
    tiePhoto1 ≠ tiePhoto2 := by decide

/-- Claim C9 (amended): the collection returned by `recordPhoto` (and shown
by `loadPhotos`) is the appended list stably sorted newest-first by
`createdAt`: it is ordered by non-increasing timestamp, it is a permutation
of the appended list, and records with equal timestamps keep their insertion
order, so the EARLIER-inserted record of a tie is sorted first. -/
theorem photo_order_newest_first_stable :
    (∀ (store : Store) (photoUri caption id : String) (now : Int) (photosList : List Photo),
        parsePayload store.photos = some photosList →
        (savePhoto store photoUri caption id now).2
          = PhotoResult.saved (sortTsDesc Photo.timestamp (photosList ++
              [{ id := id, uri := photoUri,
                 description := if caption = "" then "Eco-friendly activity" else caption,
                 timestamp := now }]))) ∧
    (∀ (store : Store) (shown photosList : List Photo),
        parsePayload store.photos = some photosList →
        loadPhotos store shown = sortTsDesc Photo.timestamp photosList) ∧
    (∀ l : List Photo,
        (sortTsDesc Photo.timestamp l).Pairwise (fun a b => b.timestamp ≤ a.timestamp)) ∧
    (∀ (l : List Photo) (t : Int),
        (sortTsDesc Photo.timestamp l).filter (fun p => p.timestamp == t)
          = l.filter (fun p => p.timestamp == t)) ∧
    (∀ l : List Photo, (sortTsDesc Photo.timestamp l).Perm l) := by
  refine ⟨?_, ?_, pairwise_sortTsDesc Photo.timestamp,
    filter_sortTsDesc Photo.timestamp, perm_sortTsDesc Photo.timestamp⟩
  · intro store photoUri caption id now photosList hparse
    unfold savePhoto
    rw [hparse]
  · intro store shown photosList hparse
    unfold loadPhotos
    rw [hparse]

/-- Witness for claim C9: `photo_order_newest_first_stable` applied at a concrete input. -/
theorem photo_order_newest_first_stable_witness :
    (savePhoto { activities := Payload.absent, photos := Payload.ok [tiePhoto1] }
        "u2" "c2" "2" 100).2
      = PhotoResult.saved (sortTsDesc Photo.timestamp ([tiePhoto1] ++
          [{ id := "2", uri := "u2",
             description := if ("c2" : String) = "" then "Eco-friendly activity" else "c2",
             timestamp := 100 }])) :=
  photo_order_newest_first_stable.1
    { activities := Payload.absent, photos := Payload.ok [tiePhoto1] }
    "u2" "c2" "2" 100 [tiePhoto1] (by decide)

/-- Claim C10 (confirmed): a `recordActivity` call never changes the photos
slot of the store and a `recordPhoto` call never changes the activities
slot, whatever the starting store and whether the operation succeeds or
fails. -/
theorem store_frame_separation (store : Store)
    (description category duration notes id photoUri caption pid : String) (now pnow : Int) :
    (handleSaveActivity store description category duration notes id now).1.photos
      = store.photos ∧
    (savePhoto store photoUri caption pid pnow).1.activities = store.activities := by
  constructor
  · unfold handleSaveActivity
    by_cases h : jsTrim description = "" ∨ category = ""
    · rw [if_pos h]
    · rw [if_neg h]
      cases hp : parsePayload store.activities with
      | none => rfl
      | some l => rfl
  · unfold savePhoto
    cases hp : parsePayload store.photos with
    | none => rfl
    | some l => rfl

end EcoTracker
